import Mathlib

/-!
Verification of the fanout / claim / escalation core of the shift-coordination
service (`app/api.py`, `app/database.py`, `app/models.py`).

Embedding conventions:
* Timestamps are `Nat` instants (`datetime.now(UTC)` becomes an explicit `now`
  parameter of each operation).
* The in-memory key-value stores (`InMemoryKeyValueDatabase`, backed by a
  Python `dict`) are association lists in insertion order; `put` on a present
  key replaces the value in place (Python dicts keep the original position),
  `put` on an absent key appends, `all()` lists values in insertion order.
* `send_sms` / `place_phone_call` (module `app.notifier`) are external
  collaborators; their invocations are recorded as `Notification` events in
  the operation's output.
* Intent classification (`app.intent`) is an external collaborator; the
  inbound handler consumes the already-classified `Intent` value.
* `asyncio` scheduling is cooperative: code between `await` points runs
  atomically.  The body of the claim critical section
  (`api.py` lines 173-182) contains no `await`, so acquiring the per-shift
  lock, running the body and releasing is a single atomic step; the lock is
  never held across a suspension point.  The concurrent-claim model below
  therefore represents one inbound-handler call as two atomic steps: the
  candidate scan (lines 150-169, no `await` inside) and the locked claim
  section, with a suspension point between them (`await _get_claim_lock`,
  `async with lock`).
* String bodies of notifications are kept abstract up to rendering: the
  source formats the shift window with `strftime` and quotes the reply
  keywords; here the window is rendered with `toString` and the quotes are
  elided, which no claim depends on.
-/

/-- Association-list store in insertion order, the model of
`InMemoryKeyValueDatabase` (`app/database.py`).  Keys are strings. -/
abbrev Store (V : Type) : Type := List (String × V)

namespace Store

/-- `dict.get(key)`: value of the first (unique) entry with this key. -/
def get {V : Type} : Store V → String → Option V
  | [], _ => none
  | (k1, v1) :: rest, k => if k1 == k then some v1 else get rest k

/-- `dict[key] = value`: replace in place if the key is present (keeping its
position, as Python dicts do), otherwise append. -/
def put {V : Type} : Store V → String → V → Store V
  | [], k, v => [(k, v)]
  | (k1, v1) :: rest, k, v =>
    if k1 == k then (k1, v) :: rest else (k1, v1) :: put rest k v

/-- `list(store.values())`: values in insertion order. -/
def all {V : Type} (s : Store V) : List V := s.map Prod.snd

end Store

/-- `Shift` (`app/models.py`).  Instants are `Nat`. -/
structure Shift where
  id : String
  organization_id : String
  role_required : String
  start_time : Nat
  end_time : Nat
deriving DecidableEq, Repr

/-- `Caregiver` (`app/models.py`). -/
structure Caregiver where
  id : String
  name : String
  role : String
  phone : String
deriving DecidableEq, Repr

/-- `ShiftFanoutStatus` (`app/models.py`). -/
inductive ShiftFanoutStatus where
  | PENDING
  | CLAIMED
  | ESCALATED
deriving DecidableEq, Repr

/-- `ShiftFanout` (`app/models.py`). -/
structure ShiftFanout where
  shift_id : String
  status : ShiftFanoutStatus
  created_at : Nat
  claimed_by : Option String := none
  sms_sent_at : Option Nat := none
  phone_call_sent_at : Option Nat := none
  contacted_caregiver_ids : List String := []
deriving DecidableEq, Repr

/-- `ShiftRequestMessageIntent` (module `app.intent`, an external collaborator:
the core only compares the classified value against `ACCEPT`). -/
inductive Intent where
  | ACCEPT
  | DECLINE
  | UNKNOWN
deriving DecidableEq, Repr

/-- A notification handed to the external `app.notifier` collaborator. -/
inductive Notification where
  | sms (phone : String) (body : String)
  | call (phone : String) (body : String)
deriving DecidableEq, Repr

/-- `Database` (`app/database.py`): the three entity collections. -/
structure Database where
  shifts : Store Shift
  caregivers : Store Caregiver
  fanouts : Store ShiftFanout
deriving DecidableEq, Repr

namespace Database

/-- `Database.get_caregivers_by_role` (`app/database.py`). -/
def get_caregivers_by_role (db : Database) (role : String) : List Caregiver :=
  db.caregivers.all.filter (fun c => c.role == role)

/-- `Database.get_caregiver_by_phone` (`app/database.py`). -/
def get_caregiver_by_phone (db : Database) (phone : String) : Option Caregiver :=
  db.caregivers.all.find? (fun c => c.phone == phone)

end Database

/-! ## Fanout initiation (`fanout_shift`, `app/api.py` lines 36-91) -/

/-- Caller-visible result of `fanout_shift`.  The two `HTTPException` raises
(shift not found, no eligible caregivers) are modelled as error results. -/
inductive FanoutResult where
  | shift_not_found
  | already_fanout
  | no_eligible_caregivers
  | fanout_initiated (caregiver_count : Nat)
deriving DecidableEq, Repr

/-- Full outcome of one `fanout_shift` call: the result, the database after
the call, the SMS sends handed to the notifier, and whether an escalation
task was spawned (`asyncio.create_task(_schedule_escalation ...)`). -/
structure FanoutOutcome where
  result : FanoutResult
  db : Database
  sent : List Notification
  escalation_scheduled : Bool
deriving DecidableEq, Repr

/-- SMS body built at `app/api.py` lines 68-72 (window rendered abstractly). -/
def shift_message (shift : Shift) : String :=
  "New shift available: " ++ toString shift.start_time ++ " to "
    ++ toString shift.end_time ++ ". Reply yes or accept to claim."

/-- `fanout_shift` (`app/api.py` lines 36-91).  `now` is `datetime.now(UTC)`. -/
def fanout_shift (db : Database) (now : Nat) (shift_id : String) : FanoutOutcome :=
  match db.shifts.get shift_id with
  | none => ⟨.shift_not_found, db, [], false⟩
  | some shift =>
    match db.fanouts.get shift_id with
    | some _ => ⟨.already_fanout, db, [], false⟩
    | none =>
      let matching_caregivers := db.get_caregivers_by_role shift.role_required
      if matching_caregivers.isEmpty then
        ⟨.no_eligible_caregivers, db, [], false⟩
      else
        let contacted_ids := matching_caregivers.map (fun c => c.id)
        let sent := matching_caregivers.map
          (fun c => Notification.sms c.phone (shift_message shift))
        let fanout : ShiftFanout :=
          { shift_id := shift_id
            status := .PENDING
            created_at := now
            claimed_by := none
            sms_sent_at := some now
            phone_call_sent_at := none
            contacted_caregiver_ids := contacted_ids }
        ⟨.fanout_initiated matching_caregivers.length,
          { db with fanouts := db.fanouts.put shift_id fanout }, sent, true⟩

/-! ## Escalation (`_schedule_escalation`, `app/api.py` lines 94-121)

The function sleeps for the configured delay and then runs its body.  The
body is modelled twice: `escalation_action` is the whole body run without
interference (used for the sequential claims), and the pair
`escalation_check` / `escalation_write` splits the same lines at the only
suspension point inside the body — the `await place_phone_call` loop (line
117), which suspends whenever the re-resolved caregiver list is non-empty.
The body takes NO per-shift lock in the source. -/

/-- Phone-call body built at `app/api.py` lines 110-114. -/
def escalation_message (shift : Shift) : String :=
  "Shift still available: " ++ toString shift.start_time ++ " to "
    ++ toString shift.end_time ++ ". Reply yes or accept to claim."

/-- Body of `_schedule_escalation` (`app/api.py` lines 98-121) run atomically
(no interleaved mutation between its read and its write).  Returns the
database after the body and the phone calls handed to the notifier. -/
def escalation_action (db : Database) (now : Nat) (shift_id : String) :
    Database × List Notification :=
  match db.fanouts.get shift_id with
  | none => (db, [])
  | some fanout =>
    if fanout.status ≠ .PENDING then (db, [])
    else
      match db.shifts.get shift_id with
      | none => (db, [])
      | some shift =>
        let matching_caregivers := db.get_caregivers_by_role shift.role_required
        let calls := matching_caregivers.map
          (fun c => Notification.call c.phone (escalation_message shift))
        let fanout2 := { fanout with
          status := .ESCALATED, phone_call_sent_at := some now }
        ({ db with fanouts := db.fanouts.put shift_id fanout2 }, calls)

/-- Outcome of the atomic prefix of the escalation body (`app/api.py` lines
98-107): the guards up to the start of the `place_phone_call` loop. -/
inductive EscCheck where
  | noop
  | proceed (shift : Shift)
deriving DecidableEq, Repr

/-- Guards of the escalation body (`app/api.py` lines 98-105): no-op when the
fanout is absent, not PENDING, or the shift record is gone; otherwise the
action proceeds to the call loop. -/
def escalation_check (db : Database) (shift_id : String) : EscCheck :=
  match db.fanouts.get shift_id with
  | none => .noop
  | some fanout =>
    if fanout.status ≠ .PENDING then .noop
    else
      match db.shifts.get shift_id with
      | none => .noop
      | some shift => .proceed shift

/-- Write step of the escalation body (`app/api.py` lines 119-121), executed
after the `place_phone_call` loop resumes.  The Python code mutates the
`fanout` object it read before suspending; that object is the very object
held in the store (aliasing), so any fields a concurrent claim wrote in the
meantime (`claimed_by`, `status := CLAIMED`) are present on it when lines
119-120 overwrite `status` and `phone_call_sent_at`.  This aliasing is
modelled by re-reading the current record and overwriting those two fields.
Nothing ever removes a fanout record, so the read always succeeds in the runs
considered; the `none` branch is unreachable padding. -/
def escalation_write (db : Database) (shift_id : String) (now : Nat) : Database :=
  match db.fanouts.get shift_id with
  | none => db
  | some fanout =>
    let fanout2 := { fanout with
      status := ShiftFanoutStatus.ESCALATED, phone_call_sent_at := some now }
    { db with fanouts := db.fanouts.put shift_id fanout2 }

/-! ## Inbound message handling (`handle_inbound_message`, `app/api.py`
lines 124-187) -/

/-- State of the candidate scan (`app/api.py` lines 150-158): the local
variables `fanout` (first PENDING match, stops the loop) and
`claimed_fanout` (last CLAIMED match seen so far). -/
structure ScanResult where
  fanout : Option ShiftFanout
  claimed_fanout : Option ShiftFanout
deriving DecidableEq, Repr

/-- The scan loop of `handle_inbound_message` (`app/api.py` lines 150-158)
over the store's enumeration order, carrying the `claimed_fanout`
accumulator (initially `none`). -/
def scan_fanouts (fs : List ShiftFanout) (caregiver_id : String)
    (claimed : Option ShiftFanout) : ScanResult :=
  match fs with
  | [] => ⟨none, claimed⟩
  | f :: rest =>
    if caregiver_id ∈ f.contacted_caregiver_ids then
      if f.status = .PENDING then ⟨some f, claimed⟩
      else if f.status = .CLAIMED then scan_fanouts rest caregiver_id (some f)
      else scan_fanouts rest caregiver_id claimed
    else scan_fanouts rest caregiver_id claimed

/-- Outcome of the locked claim section. `claimed = true` maps to the
`shift_claimed` response, `false` to `shift_already_claimed`.
`cancel_signaled` records whether any escalation-cancellation signal was
issued inside the section: the source body (`app/api.py` lines 173-182)
contains no such signal, so the field is always `false`. -/
structure ClaimOutcome where
  claimed : Bool
  db : Database
  cancel_signaled : Bool
deriving DecidableEq, Repr

/-- The claim critical section (`app/api.py` lines 171-182): under the
per-shift lock, re-read the fanout; if absent or no longer PENDING answer
`shift_already_claimed`; otherwise set `status := CLAIMED` and
`claimed_by := caregiver_id` and write the record back.  The body contains
no `await`, so it executes atomically under asyncio; no cancellation signal
to the escalation task is sent anywhere in it. -/
def claim_section (db : Database) (shift_id : String) (caregiver_id : String) :
    ClaimOutcome :=
  match db.fanouts.get shift_id with
  | none => ⟨false, db, false⟩
  | some fanout =>
    if fanout.status ≠ .PENDING then ⟨false, db, false⟩
    else
      let fanout2 := { fanout with
        status := .CLAIMED, claimed_by := some caregiver_id }
      ⟨true, { db with fanouts := db.fanouts.put shift_id fanout2 }, false⟩

/-- Caller-visible result of `handle_inbound_message`. -/
inductive InboundResult where
  | caregiver_not_found
  | processed
  | shift_already_claimed
  | no_pending_shift
  | shift_claimed (shift_id : String) (caregiver_name : String)
deriving DecidableEq, Repr

/-- Outcome of one `handle_inbound_message` call run without interference. -/
structure InboundOutcome where
  result : InboundResult
  db : Database
deriving DecidableEq, Repr

/-- `handle_inbound_message` (`app/api.py` lines 124-187) run without
interference.  `from_phone` is the sender address; `intent` is the value the
external classifier returned for the message body (the timestamp defaulting
at lines 132-133 touches only the transient message and is elided). -/
def handle_inbound_message (db : Database) (from_phone : String)
    (intent : Intent) : InboundOutcome :=
  match db.get_caregiver_by_phone from_phone with
  | none => ⟨.caregiver_not_found, db⟩
  | some caregiver =>
    if intent ≠ .ACCEPT then ⟨.processed, db⟩
    else
      let scan := scan_fanouts db.fanouts.all caregiver.id none
      match scan.fanout with
      | none =>
        match scan.claimed_fanout with
        | some _ => ⟨.shift_already_claimed, db⟩
        | none => ⟨.no_pending_shift, db⟩
      | some fanout =>
        let outcome := claim_section db fanout.shift_id caregiver.id
        if outcome.claimed then
          ⟨.shift_claimed fanout.shift_id caregiver.name, outcome.db⟩
        else ⟨.shift_already_claimed, outcome.db⟩

/-! ## Concurrent claim attempts

One inbound-handler call for an already-resolved caregiver and an ACCEPT
intent is two atomic asyncio steps (see the header): the candidate scan and
the locked claim section.  A system state is the shared database plus the
phase of each in-flight handler; a scheduler step runs the next atomic step
of one chosen handler. -/

/-- Phase of one in-flight inbound-handler call (for an ACCEPT intent from a
resolved caregiver). -/
inductive ClaimerPhase where
  | toScan
  | toClaim (shift_id : String)
  | doneClaimed (shift_id : String)
  | doneAlreadyClaimed
  | doneNoPending
deriving DecidableEq, Repr

/-- Whether a handler call has produced its response. -/
def ClaimerPhase.isDone : ClaimerPhase → Bool
  | .toScan => false
  | .toClaim _ => false
  | .doneClaimed _ => true
  | .doneAlreadyClaimed => true
  | .doneNoPending => true

/-- One atomic step of a handler call by caregiver `c`: from `toScan` it runs
the scan (`app/api.py` lines 150-169) and either finishes with a response or
suspends before the lock; from `toClaim` it runs the locked claim section
(lines 171-187) and finishes.  Finished phases do not move. -/
def claimerStep (db : Database) (c : Caregiver) :
    ClaimerPhase → Database × ClaimerPhase
  | .toScan =>
    let scan := scan_fanouts db.fanouts.all c.id none
    match scan.fanout with
    | some f => (db, .toClaim f.shift_id)
    | none =>
      match scan.claimed_fanout with
      | some _ => (db, .doneAlreadyClaimed)
      | none => (db, .doneNoPending)
  | .toClaim sid =>
    let outcome := claim_section db sid c.id
    (outcome.db, if outcome.claimed then .doneClaimed sid else .doneAlreadyClaimed)
  | .doneClaimed sid => (db, .doneClaimed sid)
  | .doneAlreadyClaimed => (db, .doneAlreadyClaimed)
  | .doneNoPending => (db, .doneNoPending)

/-- Shared state of a system of concurrent handler calls: the database plus
one phase per call (`phases[i]` belongs to caregiver `cgs[i]`). -/
structure ClaimSys where
  db : Database
  phases : List ClaimerPhase
deriving DecidableEq, Repr

/-- Scheduler step: run the next atomic step of handler `i` (out-of-range
indices do nothing). -/
def sysStep (cgs : List Caregiver) (s : ClaimSys) (i : Nat) : ClaimSys :=
  match cgs[i]?, s.phases[i]? with
  | some c, some ph =>
    let r := claimerStep s.db c ph
    ⟨r.1, s.phases.set i r.2⟩
  | _, _ => s

/-- Run a whole interleaving (a list of scheduler choices). -/
def sysRun (cgs : List Caregiver) (s : ClaimSys) (sched : List Nat) : ClaimSys :=
  sched.foldl (sysStep cgs) s

/-- The record a successful claim by `caregiver_id` leaves in the store. -/
def claimedRecord (f : ShiftFanout) (caregiver_id : String) : ShiftFanout :=
  { f with status := .CLAIMED, claimed_by := some caregiver_id }

/-! ## Invariants

`ClaimInv` is the inductive invariant for the concurrent-claim system over a
single PENDING fanout; `FanoutStoreWF` / `FanoutInv` are the store
well-formedness and the `claimed_by`-membership invariant of §3. -/

/-- Before anyone claims: the store still holds the original PENDING record
and every handler is before its claim section. -/
def InvA (sid : String) (f0 : ShiftFanout) (s : ClaimSys) : Prop :=
  s.db.fanouts = [(sid, f0)] ∧
    ∀ ph ∈ s.phases, ph = ClaimerPhase.toScan ∨ ph = ClaimerPhase.toClaim sid

/-- After the winner `j` claimed: the store holds the CLAIMED record naming
caregiver `cgs[j]`, handler `j` finished with `shift_claimed`, and every
other handler is unfinished or finished with `shift_already_claimed`. -/
def InvB (sid : String) (f0 : ShiftFanout) (cgs : List Caregiver)
    (s : ClaimSys) : Prop :=
  ∃ (j : Nat) (c : Caregiver), cgs[j]? = some c ∧
    s.phases[j]? = some (ClaimerPhase.doneClaimed sid) ∧
    s.db.fanouts = [(sid, claimedRecord f0 c.id)] ∧
    ∀ i, i ≠ j → ∀ ph, s.phases[i]? = some ph →
      ph = ClaimerPhase.toScan ∨ ph = ClaimerPhase.toClaim sid ∨
        ph = ClaimerPhase.doneAlreadyClaimed

/-- Inductive invariant of the concurrent-claim system. -/
def ClaimInv (sid : String) (f0 : ShiftFanout) (cgs : List Caregiver)
    (s : ClaimSys) : Prop :=
  s.phases.length = cgs.length ∧ (InvA sid f0 s ∨ InvB sid f0 cgs s)

/-- §3 invariant for one record: `claimed_by`, when non-null, is an
identifier present in `contacted_caregiver_ids`. -/
def claimed_by_ok (f : ShiftFanout) : Bool :=
  match f.claimed_by with
  | none => true
  | some cid => f.contacted_caregiver_ids.contains cid

/-- Well-formedness of the fanout store: keys are distinct and each record
is keyed by its own `shift_id` (true of every store the operations build:
`fanout_shift` puts the record under its `shift_id`, the other writers
preserve both fields). -/
abbrev FanoutStoreWF (s : Store ShiftFanout) : Prop :=
  (s.map Prod.fst).Nodup ∧ ∀ p ∈ s, p.2.shift_id = p.1

/-- §3 invariant over the whole fanout store. -/
abbrev FanoutInv (s : Store ShiftFanout) : Prop :=
  ∀ f ∈ s.all, claimed_by_ok f = true

/-! ## Concrete scenario data (used by witnesses and counterexamples) -/

def shiftS : Shift :=
  { id := "s1", organization_id := "org1", role_required := "RN"
    start_time := 100, end_time := 200 }

def shiftT : Shift :=
  { id := "s2", organization_id := "org1", role_required := "CNA"
    start_time := 300, end_time := 400 }

def caregiverA : Caregiver :=
  { id := "a", name := "Alice", role := "RN", phone := "p1" }

def caregiverB : Caregiver :=
  { id := "b", name := "Bob", role := "RN", phone := "p2" }

def pendingFanout : ShiftFanout :=
  { shift_id := "s1", status := .PENDING, created_at := 10, claimed_by := none
    sms_sent_at := some 10, phone_call_sent_at := none
    contacted_caregiver_ids := ["a", "b"] }

/-- Shift `s1` exists, both RN caregivers exist, fanout for `s1` is PENDING. -/
def dbPending : Database :=
  { shifts := [("s1", shiftS)]
    caregivers := [("a", caregiverA), ("b", caregiverB)]
    fanouts := [("s1", pendingFanout)] }

/-- Shift `s1` exists, both RN caregivers exist, no fanout yet. -/
def dbNoFanout : Database :=
  { shifts := [("s1", shiftS)]
    caregivers := [("a", caregiverA), ("b", caregiverB)]
    fanouts := [] }

/-- A fanout record exists for `s1` but the Shift record is absent. -/
def dbFanoutNoShift : Database :=
  { shifts := [], caregivers := [], fanouts := [("s1", pendingFanout)] }

def caregiverC : Caregiver :=
  { id := "c", name := "Cara", role := "CNA", phone := "p3" }

/-- Shift `s2` requires role CNA; only RN caregivers exist; no fanout. -/
def dbNoMatch : Database :=
  { shifts := [("s2", shiftT)]
    caregivers := [("a", caregiverA), ("b", caregiverB)]
    fanouts := [] }

/-- `dbPending` after caregiver `a` claimed shift `s1`. -/
def dbClaimed : Database :=
  { shifts := [("s1", shiftS)]
    caregivers := [("a", caregiverA), ("b", caregiverB)]
    fanouts := [("s1", claimedRecord pendingFanout "a")] }

/-- The record the escalation write leaves in the store. -/
def escalatedRecord (f : ShiftFanout) (now : Nat) : ShiftFanout :=
  { f with status := .ESCALATED, phone_call_sent_at := some now }

/-- The record a first fanout at instant `now` stores for `sid`. -/
def initialFanout (sid : String) (now : Nat) (contacted : List String) :
    ShiftFanout :=
  { shift_id := sid, status := .PENDING, created_at := now, claimed_by := none
    sms_sent_at := some now, phone_call_sent_at := none
    contacted_caregiver_ids := contacted }

/-! ## Store lemmas -/

namespace Store

theorem get_put_self {V : Type} (s : Store V) (k : String) (v : V) :
    (s.put k v).get k = some v := by
  induction s with
  | nil => simp [put, get]
  | cons p rest ih =>
    obtain ⟨k1, v1⟩ := p
    by_cases h : k1 = k
    · subst h; simp [put, get]
    · have hb : (k1 == k) = false := by simpa using h
      simp [put, get, hb, ih]

theorem get_put_ne {V : Type} (s : Store V) (k k2 : String) (v : V)
    (h : k ≠ k2) : (s.put k v).get k2 = s.get k2 := by
  induction s with
  | nil =>
    have hb : (k == k2) = false := by simpa using h
    simp [put, get, hb]
  | cons p rest ih =>
    obtain ⟨k1, v1⟩ := p
    by_cases h1 : k1 = k
    · subst h1
      have hb : (k1 == k2) = false := by simpa using h
      simp [put, get, hb]
    · have hb : (k1 == k) = false := by simpa using h1
      simp [put, get, hb, ih]

theorem mem_all_put {V : Type} (s : Store V) (k : String) (v : V) :
    v ∈ (s.put k v).all := by
  induction s with
  | nil => simp [put, all]
  | cons p rest ih =>
    obtain ⟨k1, v1⟩ := p
    by_cases h : k1 = k
    · subst h; simp [put, all]
    · have hb : (k1 == k) = false := by simpa using h
      simp [put, all, hb]
      simpa [all] using Or.inr ih

theorem mem_all_of_mem_all_put {V : Type} (s : Store V) (k : String) (v g : V)
    (h : g ∈ (s.put k v).all) : g ∈ s.all ∨ g = v := by
  induction s with
  | nil =>
    simp [put, all] at h
    exact Or.inr h
  | cons p rest ih =>
    obtain ⟨k1, v1⟩ := p
    by_cases h1 : k1 = k
    · subst h1
      simp [put, all] at h
      rcases h with h | h
      · exact Or.inr h
      · exact Or.inl (by simp [all, h])
    · have hb : (k1 == k) = false := by simpa using h1
      simp [put, all, hb] at h
      rcases h with h | h
      · exact Or.inl (by simp [all, h])
      · rcases ih (by simpa [all] using h) with h2 | h2
        · exact Or.inl (by simp [all]; exact Or.inr (by simpa [all] using h2))
        · exact Or.inr h2

end Store


/-! ## C10 : escalation with a PENDING fanout but an absent Shift -/

/-- C10: if the fanout is still PENDING when the escalation delay elapses but
the Shift record is absent at that moment, the escalation action places no
phone calls and leaves the store unchanged (`app/api.py` lines 103-105
return before any call or write). -/
theorem c10_escalation_shift_absent (db : Database) (now : Nat) (sid : String)
    (f : ShiftFanout) (hf : db.fanouts.get sid = some f)
    (hP : f.status = ShiftFanoutStatus.PENDING)
    (hs : db.shifts.get sid = none) :
    escalation_action db now sid = (db, []) := by
  simp [escalation_action, hf, hP, hs]

/-- C10 witness: concrete state with a PENDING fanout for `s1` and no Shift
record. -/
theorem c10_witness :
    Store.get dbFanoutNoShift.fanouts "s1" = some pendingFanout ∧
    pendingFanout.status = ShiftFanoutStatus.PENDING ∧
    Store.get dbFanoutNoShift.shifts "s1" = none ∧
    escalation_action dbFanoutNoShift 77 "s1" = (dbFanoutNoShift, []) :=
  ⟨by decide, by decide, by decide,
    c10_escalation_shift_absent dbFanoutNoShift 77 "s1" pendingFanout
      (by decide) (by decide) (by decide)⟩

/-! ## C4 : escalation action behavior at the deadline -/

/-- C4: when the escalation action runs, (a) if the fanout record is absent
or not PENDING it performs no notification and no store write; (b) if it is
still PENDING and the Shift record is present, it places one phone call per
caregiver whose role equals the shift's required role at that moment
(re-resolved, not the original contacted set), sets status to ESCALATED and
`phone_call_sent_at` to the current instant (`app/api.py` lines 94-121). -/
theorem c4_escalation_behavior (db : Database) (now : Nat) (sid : String) :
    ((db.fanouts.get sid = none ∨
        ∃ f, db.fanouts.get sid = some f ∧
          f.status ≠ ShiftFanoutStatus.PENDING) →
      escalation_action db now sid = (db, [])) ∧
    (∀ (f : ShiftFanout) (shift : Shift), db.fanouts.get sid = some f →
      f.status = ShiftFanoutStatus.PENDING →
      db.shifts.get sid = some shift →
      escalation_action db now sid =
        ({ db with fanouts := db.fanouts.put sid (escalatedRecord f now) },
          (db.get_caregivers_by_role shift.role_required).map
            (fun c => Notification.call c.phone (escalation_message shift)))) := by
  constructor
  · rintro (h | ⟨f, hf, hP⟩)
    · simp [escalation_action, h]
    · simp [escalation_action, hf, hP]
  · intro f shift hf hP hs
    simp [escalation_action, escalatedRecord, hf, hP, hs]

/-- C4 witness: branch (a) at a CLAIMED record, branch (b) at a PENDING
record with shift `s1` present and two RN caregivers re-resolved. -/
theorem c4_witness :
    escalation_action dbClaimed 77 "s1" = (dbClaimed, []) ∧
    escalation_action dbPending 77 "s1" =
      ({ dbPending with
          fanouts := Store.put dbPending.fanouts "s1" (escalatedRecord pendingFanout 77) },
        (dbPending.get_caregivers_by_role shiftS.role_required).map
          (fun c => Notification.call c.phone (escalation_message shiftS))) :=
  ⟨(c4_escalation_behavior dbClaimed 77 "s1").1
      (Or.inr ⟨claimedRecord pendingFanout "a", by decide, by decide⟩),
    (c4_escalation_behavior dbPending 77 "s1").2 pendingFanout shiftS
      (by decide) (by decide) (by decide)⟩

/-! ## C6 : fanout with no eligible recipients -/

/-- C6: when the Shift exists, no fanout exists and no caregiver matches the
required role, `fanout_shift` fails with the no-eligible-recipients 404,
creates no record and leaves the store unchanged; after a caregiver with the
matching role is added, a later call reports `fanout_initiated`
(`app/api.py` lines 58-63). -/
theorem c6_no_eligible_recipients (db : Database) (now : Nat) (sid : String)
    (shift : Shift)
    (hs : db.shifts.get sid = some shift)
    (hf : db.fanouts.get sid = none)
    (hm : db.get_caregivers_by_role shift.role_required = []) :
    fanout_shift db now sid = ⟨.no_eligible_caregivers, db, [], false⟩ ∧
    ∀ (c : Caregiver) (now2 : Nat), c.role = shift.role_required →
      (fanout_shift { db with caregivers := db.caregivers.put c.id c }
          now2 sid).result =
        .fanout_initiated
          (({ db with caregivers := db.caregivers.put c.id c } :
              Database).get_caregivers_by_role shift.role_required).length := by
  constructor
  · simp [fanout_shift, hs, hf, hm]
  · intro c now2 hrole
    have hc : c ∈ ({ db with caregivers := db.caregivers.put c.id c } :
        Database).get_caregivers_by_role shift.role_required := by
      simp only [Database.get_caregivers_by_role, List.mem_filter]
      exact ⟨Store.mem_all_put _ _ _, by simp [hrole]⟩
    have hne : (({ db with caregivers := db.caregivers.put c.id c } :
        Database).get_caregivers_by_role shift.role_required).isEmpty = false := by
      cases h2 : ({ db with caregivers := db.caregivers.put c.id c } :
          Database).get_caregivers_by_role shift.role_required with
      | nil => rw [h2] at hc; cases hc
      | cons a l => rfl
    simp [fanout_shift, hs, hf, hne]

/-- C6 witness: shift `s2` requires CNA, only RN caregivers exist; then a
CNA caregiver is added and fanout succeeds. -/
theorem c6_witness :
    fanout_shift dbNoMatch 42 "s2" =
      ⟨.no_eligible_caregivers, dbNoMatch, [], false⟩ ∧
    (fanout_shift { dbNoMatch with
        caregivers := Store.put dbNoMatch.caregivers caregiverC.id caregiverC }
        43 "s2").result =
      .fanout_initiated
        (({ dbNoMatch with
            caregivers := Store.put dbNoMatch.caregivers caregiverC.id caregiverC } :
            Database).get_caregivers_by_role shiftT.role_required).length :=
  ⟨(c6_no_eligible_recipients dbNoMatch 42 "s2" shiftT
      (by decide) (by decide) (by decide)).1,
    (c6_no_eligible_recipients dbNoMatch 42 "s2" shiftT
      (by decide) (by decide) (by decide)).2 caregiverC 43 (by decide)⟩

/-! ## C7 : successful first fanout -/

/-- C7: when the Shift exists, no fanout exists and at least one caregiver
matches the required role, `fanout_shift` sends exactly one SMS per matching
caregiver, stores a PENDING ShiftFanout whose `created_at` and `sms_sent_at`
both equal the current instant and whose contacted set is exactly the
matched caregiver identifiers, and returns `fanout_initiated`
(`app/api.py` lines 58-91). -/
theorem c7_fanout_success (db : Database) (now : Nat) (sid : String)
    (shift : Shift)
    (hs : db.shifts.get sid = some shift)
    (hf : db.fanouts.get sid = none)
    (hm : db.get_caregivers_by_role shift.role_required ≠ []) :
    fanout_shift db now sid =
      ⟨.fanout_initiated (db.get_caregivers_by_role shift.role_required).length,
        { db with
          fanouts := db.fanouts.put sid (initialFanout sid now
            ((db.get_caregivers_by_role shift.role_required).map (fun c => c.id))) },
        (db.get_caregivers_by_role shift.role_required).map
          (fun c => Notification.sms c.phone (shift_message shift)),
        true⟩ ∧
    (fanout_shift db now sid).db.fanouts.get sid =
      some (initialFanout sid now
        ((db.get_caregivers_by_role shift.role_required).map (fun c => c.id))) := by
  have hne : (db.get_caregivers_by_role shift.role_required).isEmpty = false := by
    cases h2 : db.get_caregivers_by_role shift.role_required with
    | nil => exact absurd h2 hm
    | cons a l => rfl
  have hmain : fanout_shift db now sid =
      ⟨.fanout_initiated (db.get_caregivers_by_role shift.role_required).length,
        { db with
          fanouts := db.fanouts.put sid (initialFanout sid now
            ((db.get_caregivers_by_role shift.role_required).map (fun c => c.id))) },
        (db.get_caregivers_by_role shift.role_required).map
          (fun c => Notification.sms c.phone (shift_message shift)),
        true⟩ := by
    simp [fanout_shift, initialFanout, hs, hf, hne]
  refine ⟨hmain, ?_⟩
  rw [hmain]
  exact Store.get_put_self _ _ _

/-- C7 witness: fanout of shift `s1` from `dbNoFanout` contacts both RN
caregivers. -/
theorem c7_witness :
    fanout_shift dbNoFanout 55 "s1" =
      ⟨.fanout_initiated
          (dbNoFanout.get_caregivers_by_role shiftS.role_required).length,
        { dbNoFanout with
          fanouts := Store.put dbNoFanout.fanouts "s1" (initialFanout "s1" 55
            ((dbNoFanout.get_caregivers_by_role shiftS.role_required).map
              (fun c => c.id))) },
        (dbNoFanout.get_caregivers_by_role shiftS.role_required).map
          (fun c => Notification.sms c.phone (shift_message shiftS)),
        true⟩ ∧
    (fanout_shift dbNoFanout 55 "s1").db.fanouts.get "s1" =
      some (initialFanout "s1" 55
        ((dbNoFanout.get_caregivers_by_role shiftS.role_required).map
          (fun c => c.id))) :=
  c7_fanout_success dbNoFanout 55 "s1" shiftS (by decide) (by decide) (by decide)

/-! ## Helper lemmas about `fanout_shift` -/

theorem fanout_shift_existing (db : Database) (now : Nat) (sid : String)
    (shift : Shift) (f : ShiftFanout)
    (hs : db.shifts.get sid = some shift)
    (hf : db.fanouts.get sid = some f) :
    fanout_shift db now sid = ⟨.already_fanout, db, [], false⟩ := by
  simp [fanout_shift, hs, hf]

theorem fanout_shift_success (db : Database) (now : Nat) (sid : String)
    (shift : Shift)
    (hs : db.shifts.get sid = some shift)
    (hf : db.fanouts.get sid = none)
    (hm : db.get_caregivers_by_role shift.role_required ≠ []) :
    fanout_shift db now sid =
      ⟨.fanout_initiated (db.get_caregivers_by_role shift.role_required).length,
        { db with
          fanouts := db.fanouts.put sid (initialFanout sid now
            ((db.get_caregivers_by_role shift.role_required).map (fun c => c.id))) },
        (db.get_caregivers_by_role shift.role_required).map
          (fun c => Notification.sms c.phone (shift_message shift)),
        true⟩ := by
  have hne : (db.get_caregivers_by_role shift.role_required).isEmpty = false := by
    cases h2 : db.get_caregivers_by_role shift.role_required with
    | nil => exact absurd h2 hm
    | cons a l => rfl
  simp [fanout_shift, initialFanout, hs, hf, hne]

/-! ## C3 : fanout idempotency -/

/-- C3 counterexample: a state whose fanout store already holds a record for
`s1` while the Shift record is absent.  The claim says any fanout request
for a shift that already has a ShiftFanout returns `already_fanout`; the
code checks Shift existence first (`app/api.py` lines 44-49) and returns
the 404 `shift_not_found` instead. -/
theorem c3_counterexample :
    (Store.get dbFanoutNoShift.fanouts "s1").isSome = true ∧
    (fanout_shift dbFanoutNoShift 5 "s1").result = .shift_not_found ∧
    (fanout_shift dbFanoutNoShift 5 "s1").result ≠ .already_fanout := by
  decide

/-- C3 (amended): for every shift identifier whose Shift record exists and
for which a ShiftFanout already exists, a fanout request returns
`already_fanout`, sends no SMS, creates no record and leaves the store
unchanged; and calling fanout twice in sequence on a shift with at least one
eligible caregiver sends notifications exactly once (one SMS per matching
caregiver on the first call, none on the second) with the second call
reporting `already_fanout` (`app/api.py` lines 51-56). -/
theorem c3_fanout_idempotent (db : Database) (now : Nat) (sid : String) :
    (∀ (shift : Shift) (f : ShiftFanout), db.shifts.get sid = some shift →
      db.fanouts.get sid = some f →
      fanout_shift db now sid = ⟨.already_fanout, db, [], false⟩) ∧
    (∀ (shift : Shift) (now2 : Nat), db.shifts.get sid = some shift →
      db.fanouts.get sid = none →
      db.get_caregivers_by_role shift.role_required ≠ [] →
      (fanout_shift db now sid).sent.length =
        (db.get_caregivers_by_role shift.role_required).length ∧
      fanout_shift (fanout_shift db now sid).db now2 sid =
        ⟨.already_fanout, (fanout_shift db now sid).db, [], false⟩) := by
  constructor
  · intro shift f hs hf
    exact fanout_shift_existing db now sid shift f hs hf
  · intro shift now2 hs hf hm
    have h1 := fanout_shift_success db now sid shift hs hf hm
    constructor
    · rw [h1]
      simp
    · have hs2 : (fanout_shift db now sid).db.shifts.get sid = some shift := by
        rw [h1]
        exact hs
      have hf2 : (fanout_shift db now sid).db.fanouts.get sid =
          some (initialFanout sid now
            ((db.get_caregivers_by_role shift.role_required).map (fun c => c.id))) := by
        rw [h1]
        exact Store.get_put_self _ _ _
      exact fanout_shift_existing _ now2 sid shift _ hs2 hf2

/-- C3 witness: fanout of `s1` from `dbNoFanout` succeeds once; the repeat
call reports `already_fanout` with no further sends. -/
theorem c3_witness :
    (fanout_shift dbPending 9 "s1" = ⟨.already_fanout, dbPending, [], false⟩) ∧
    ((fanout_shift dbNoFanout 55 "s1").sent.length =
      (dbNoFanout.get_caregivers_by_role shiftS.role_required).length ∧
     fanout_shift (fanout_shift dbNoFanout 55 "s1").db 56 "s1" =
       ⟨.already_fanout, (fanout_shift dbNoFanout 55 "s1").db, [], false⟩) :=
  ⟨(c3_fanout_idempotent dbPending 9 "s1").1 shiftS pendingFanout
      (by decide) (by decide),
    (c3_fanout_idempotent dbNoFanout 55 "s1").2 shiftS 56
      (by decide) (by decide) (by decide)⟩

/-! ## C5 : the successful claim path -/

/-- C5 counterexample: a claim attempt that observes PENDING inside the
critical section succeeds (`claimed = true`, the `shift_claimed` outcome)
but issues NO cancellation signal to the escalation scheduler: the locked
body (`app/api.py` lines 171-182) contains no cancel call, against the
claim's "signals EscalationScheduler.cancel for that shift". -/
theorem c5_counterexample :
    (claim_section dbPending "s1" "a").claimed = true ∧
    (claim_section dbPending "s1" "a").cancel_signaled = false := by
  decide

/-- C5 (amended): for every claim attempt that, inside the per-shift
critical section, re-reads the ShiftFanout and observes status PENDING, the
operation sets status to CLAIMED, sets `claimed_by` to the claiming
caregiver's identifier, writes the record to the store and returns the
Claimed (`shift_claimed`) outcome; no escalation-cancellation signal is
sent (the escalation action's own status re-check is the only guard). -/
theorem c5_claim_success (db : Database) (sid cid : String) (f : ShiftFanout)
    (hget : db.fanouts.get sid = some f)
    (hP : f.status = ShiftFanoutStatus.PENDING) :
    claim_section db sid cid =
      ⟨true, { db with fanouts := db.fanouts.put sid (claimedRecord f cid) },
        false⟩ ∧
    (claim_section db sid cid).db.fanouts.get sid = some (claimedRecord f cid) := by
  have h1 : claim_section db sid cid =
      ⟨true, { db with fanouts := db.fanouts.put sid (claimedRecord f cid) },
        false⟩ := by
    simp [claim_section, claimedRecord, hget, hP]
  refine ⟨h1, ?_⟩
  rw [h1]
  exact Store.get_put_self _ _ _

/-- C5 witness: caregiver `a` claims the PENDING fanout for `s1`. -/
theorem c5_witness :
    claim_section dbPending "s1" "a" =
      ⟨true, { dbPending with
          fanouts := Store.put dbPending.fanouts "s1" (claimedRecord pendingFanout "a") },
        false⟩ ∧
    (claim_section dbPending "s1" "a").db.fanouts.get "s1" =
      some (claimedRecord pendingFanout "a") :=
  c5_claim_success dbPending "s1" "a" pendingFanout (by decide) (by decide)

/-! ## C2 : CLAIMED is not terminal under the real interleavings -/

/-- C2: the escalation action takes no per-shift lock
(`_schedule_escalation`, `app/api.py` lines 94-121 acquire nothing), so its
pending-check and a claim's pending-check CAN both succeed.  Concretely, on
`dbPending`: the escalation body passes its PENDING check
(`escalation_check` returns `proceed`) and, the re-resolved caregiver list
being non-empty, suspends at `await place_phone_call`; the claim section for
caregiver `a` then runs to completion and commits CLAIMED; when the
escalation body resumes, its write (`app/api.py` lines 119-121) overwrites
the CLAIMED status with ESCALATED — a status change after CLAIMED. -/
theorem c2_escalation_overwrites_claimed :
    escalation_check dbPending "s1" = .proceed shiftS ∧
    dbPending.get_caregivers_by_role shiftS.role_required ≠ [] ∧
    (claim_section dbPending "s1" "a").claimed = true ∧
    (claim_section dbPending "s1" "a").db.fanouts.get "s1" =
      some (claimedRecord pendingFanout "a") ∧
    (escalation_write (claim_section dbPending "s1" "a").db "s1" 99).fanouts.get
        "s1" =
      some (escalatedRecord (claimedRecord pendingFanout "a") 99) ∧
    (escalatedRecord (claimedRecord pendingFanout "a") 99).status ≠
      ShiftFanoutStatus.CLAIMED := by
  decide

/-! ## Scan lemmas -/

/-- The `fanout` variable of the scan is the first record (in enumeration
order) that contains the caregiver and is PENDING; the `claimed_fanout`
accumulator never influences it. -/
theorem scan_fanout_eq_find (fs : List ShiftFanout) (cid : String)
    (acc : Option ShiftFanout) :
    (scan_fanouts fs cid acc).fanout =
      fs.find? (fun f => decide (cid ∈ f.contacted_caregiver_ids) &&
        decide (f.status = ShiftFanoutStatus.PENDING)) := by
  induction fs generalizing acc with
  | nil => simp [scan_fanouts]
  | cons f rest ih =>
    by_cases h1 : cid ∈ f.contacted_caregiver_ids
    · by_cases h2 : f.status = ShiftFanoutStatus.PENDING
      · simp [scan_fanouts, h1, h2, List.find?]
      · by_cases h3 : f.status = ShiftFanoutStatus.CLAIMED
        · simp [scan_fanouts, h1, h2, h3, List.find?, ih]
        · simp [scan_fanouts, h1, h2, h3, List.find?, ih]
    · simp [scan_fanouts, h1, List.find?, ih]

/-- If no record contains the caregiver with PENDING status, the scan finds
no candidate and its `claimed_fanout` is set exactly when the accumulator
already was or some record contains the caregiver with CLAIMED status. -/
theorem scan_no_pending (fs : List ShiftFanout) (cid : String)
    (acc : Option ShiftFanout)
    (h : ∀ f ∈ fs, ¬(cid ∈ f.contacted_caregiver_ids ∧
      f.status = ShiftFanoutStatus.PENDING)) :
    (scan_fanouts fs cid acc).fanout = none ∧
    ((scan_fanouts fs cid acc).claimed_fanout.isSome =
      (acc.isSome || fs.any (fun f => decide (cid ∈ f.contacted_caregiver_ids) &&
        decide (f.status = ShiftFanoutStatus.CLAIMED)))) := by
  induction fs generalizing acc with
  | nil => simp [scan_fanouts]
  | cons f rest ih =>
    have hf := h f (by simp)
    have hrest : ∀ g ∈ rest, ¬(cid ∈ g.contacted_caregiver_ids ∧
        g.status = ShiftFanoutStatus.PENDING) :=
      fun g hg => h g (by simp [hg])
    by_cases h1 : cid ∈ f.contacted_caregiver_ids
    · have h2 : f.status ≠ ShiftFanoutStatus.PENDING := fun hP => hf ⟨h1, hP⟩
      by_cases h3 : f.status = ShiftFanoutStatus.CLAIMED
      · have := ih (some f) hrest
        simp [scan_fanouts, h1, h2, h3, this.1, this.2]
      · have := ih acc hrest
        simp [scan_fanouts, h1, h2, h3, this.1, this.2]
    · have := ih acc hrest
      simp [scan_fanouts, h1, this.1, this.2]

/-- If no record contains the caregiver at all, the scan returns the
accumulator untouched and no candidate. -/
theorem scan_no_match (fs : List ShiftFanout) (cid : String)
    (acc : Option ShiftFanout)
    (h : ∀ f ∈ fs, cid ∉ f.contacted_caregiver_ids) :
    scan_fanouts fs cid acc = ⟨none, acc⟩ := by
  induction fs generalizing acc with
  | nil => simp [scan_fanouts]
  | cons f rest ih =>
    have h1 := h f (by simp)
    have hrest : ∀ g ∈ rest, cid ∉ g.contacted_caregiver_ids :=
      fun g hg => h g (by simp [hg])
    simp [scan_fanouts, h1, ih _ hrest]

/-- A found candidate comes from the scanned list, contains the caregiver
and is PENDING. -/
theorem scan_found_spec (fs : List ShiftFanout) (cid : String)
    (acc : Option ShiftFanout) (f : ShiftFanout)
    (h : (scan_fanouts fs cid acc).fanout = some f) :
    f ∈ fs ∧ cid ∈ f.contacted_caregiver_ids ∧
      f.status = ShiftFanoutStatus.PENDING := by
  rw [scan_fanout_eq_find] at h
  have hmem := List.mem_of_find?_eq_some h
  have hpred := List.find?_some h
  simp at hpred
  exact ⟨hmem, hpred.1, hpred.2⟩

/-! ## C8 : candidate selection for an inbound ACCEPT -/

/-- C8: for an inbound ACCEPT from a known caregiver, the handler selects
the first record in store enumeration order whose contacted set contains
the caregiver and whose status is PENDING and stops there (and the response
is then decided by the claim section on that record's shift); if no such
PENDING record exists but some record containing the caregiver is CLAIMED,
the result is `shift_already_claimed`; if no record contains the caregiver
at all, the result is `no_pending_shift` (`app/api.py` lines 150-169). -/
theorem c8_accept_candidate_selection (db : Database) (from_phone : String)
    (cgr : Caregiver)
    (hcg : db.get_caregiver_by_phone from_phone = some cgr) :
    ((scan_fanouts db.fanouts.all cgr.id none).fanout =
      db.fanouts.all.find? (fun f =>
        decide (cgr.id ∈ f.contacted_caregiver_ids) &&
        decide (f.status = ShiftFanoutStatus.PENDING))) ∧
    (∀ f, (scan_fanouts db.fanouts.all cgr.id none).fanout = some f →
      (handle_inbound_message db from_phone .ACCEPT).result =
        (if (claim_section db f.shift_id cgr.id).claimed = true
          then .shift_claimed f.shift_id cgr.name
          else .shift_already_claimed)) ∧
    ((∀ f ∈ db.fanouts.all, ¬(cgr.id ∈ f.contacted_caregiver_ids ∧
        f.status = ShiftFanoutStatus.PENDING)) →
      (∃ f ∈ db.fanouts.all, cgr.id ∈ f.contacted_caregiver_ids ∧
        f.status = ShiftFanoutStatus.CLAIMED) →
      (handle_inbound_message db from_phone .ACCEPT).result =
        .shift_already_claimed) ∧
    ((∀ f ∈ db.fanouts.all, cgr.id ∉ f.contacted_caregiver_ids) →
      (handle_inbound_message db from_phone .ACCEPT).result =
        .no_pending_shift) := by
  refine ⟨scan_fanout_eq_find _ _ _, ?_, ?_, ?_⟩
  · intro f hfind
    by_cases hcl : (claim_section db f.shift_id cgr.id).claimed = true
    · simp [handle_inbound_message, hcg, hfind, hcl]
    · simp [handle_inbound_message, hcg, hfind, hcl]
  · intro hnp hex
    have hscan := scan_no_pending db.fanouts.all cgr.id none hnp
    have hany : db.fanouts.all.any (fun f =>
        decide (cgr.id ∈ f.contacted_caregiver_ids) &&
        decide (f.status = ShiftFanoutStatus.CLAIMED)) = true := by
      obtain ⟨f, hmem, h1, h2⟩ := hex
      exact List.any_eq_true.mpr ⟨f, hmem, by simp [h1, h2]⟩
    have hsome : (scan_fanouts db.fanouts.all cgr.id none).claimed_fanout.isSome
        = true := by
      rw [hscan.2]
      simp [hany]
    obtain ⟨g, hg⟩ := Option.isSome_iff_exists.mp hsome
    simp [handle_inbound_message, hcg, hscan.1, hg]
  · intro hnm
    have hscan := scan_no_match db.fanouts.all cgr.id none hnm
    simp [handle_inbound_message, hcg, hscan]

/-- C8 witness: caregiver `b` replying ACCEPT while `s1` is already CLAIMED
gets `shift_already_claimed`; caregiver `a` replying ACCEPT with no fanout
records at all gets `no_pending_shift`. -/
theorem c8_witness :
    (handle_inbound_message dbClaimed "p2" .ACCEPT).result =
      .shift_already_claimed ∧
    (handle_inbound_message dbNoFanout "p1" .ACCEPT).result =
      .no_pending_shift :=
  ⟨(c8_accept_candidate_selection dbClaimed "p2" caregiverB
        (by decide)).2.2.1 (by decide)
      ⟨claimedRecord pendingFanout "a", by decide, by decide, by decide⟩,
    (c8_accept_candidate_selection dbNoFanout "p1" caregiverA
        (by decide)).2.2.2 (by decide)⟩

/-! ## Store well-formedness lemmas -/

theorem Store.get_mem {V : Type} (s : Store V) (k : String) (v : V)
    (h : s.get k = some v) : (k, v) ∈ s := by
  induction s with
  | nil => cases h
  | cons p rest ih =>
    obtain ⟨k1, v1⟩ := p
    by_cases hb : k1 = k
    · subst hb
      simp [Store.get] at h
      subst h
      simp
    · have hbf : (k1 == k) = false := by simpa using hb
      simp [Store.get, hbf] at h
      exact List.mem_cons_of_mem _ (ih h)

theorem Store.get_mem_all {V : Type} (s : Store V) (k : String) (v : V)
    (h : s.get k = some v) : v ∈ s.all := by
  have := Store.get_mem s k v h
  simp only [Store.all]
  exact List.mem_map.mpr ⟨(k, v), this, rfl⟩

theorem Store.mem_put_elim {V : Type} (s : Store V) (k : String) (v : V)
    (p : String × V) (hp : p ∈ s.put k v) : p ∈ s ∨ p = (k, v) := by
  induction s with
  | nil =>
    simp [Store.put] at hp
    exact Or.inr hp
  | cons q rest ih =>
    obtain ⟨k1, v1⟩ := q
    by_cases hb : k1 = k
    · subst hb
      simp [Store.put] at hp
      rcases hp with hp | hp
      · exact Or.inr (by simp [hp])
      · exact Or.inl (List.mem_cons_of_mem _ hp)
    · have hbf : (k1 == k) = false := by simpa using hb
      simp [Store.put, hbf] at hp
      rcases hp with hp | hp
      · exact Or.inl (by simp [hp])
      · rcases ih hp with h2 | h2
        · exact Or.inl (List.mem_cons_of_mem _ h2)
        · exact Or.inr h2

theorem Store.not_mem_keys_of_get_none {V : Type} (s : Store V) (k : String)
    (h : s.get k = none) : k ∉ s.map Prod.fst := by
  induction s with
  | nil => simp
  | cons p rest ih =>
    obtain ⟨k1, v1⟩ := p
    by_cases hb : k1 = k
    · subst hb
      simp [Store.get] at h
    · have hbf : (k1 == k) = false := by simpa using hb
      simp [Store.get, hbf] at h
      simp [ih h]
      exact fun he => hb he.symm

theorem Store.map_fst_put_of_get_some {V : Type} (s : Store V) (k : String)
    (v w : V) (h : s.get k = some w) :
    (s.put k v).map Prod.fst = s.map Prod.fst := by
  induction s with
  | nil => cases h
  | cons p rest ih =>
    obtain ⟨k1, v1⟩ := p
    by_cases hb : k1 = k
    · subst hb
      simp [Store.put]
    · have hbf : (k1 == k) = false := by simpa using hb
      simp [Store.get, hbf] at h
      simp [Store.put, hbf, ih h]

theorem Store.map_fst_put_of_get_none {V : Type} (s : Store V) (k : String)
    (v : V) (h : s.get k = none) :
    (s.put k v).map Prod.fst = s.map Prod.fst ++ [k] := by
  induction s with
  | nil => simp [Store.put]
  | cons p rest ih =>
    obtain ⟨k1, v1⟩ := p
    by_cases hb : k1 = k
    · subst hb
      simp [Store.get] at h
    · have hbf : (k1 == k) = false := by simpa using hb
      simp [Store.get, hbf] at h
      simp [Store.put, hbf, ih h]

theorem Store.get_of_mem_nodup {V : Type} (s : Store V) (k : String) (v : V)
    (hnd : (s.map Prod.fst).Nodup) (hmem : (k, v) ∈ s) : s.get k = some v := by
  induction s with
  | nil => cases hmem
  | cons p rest ih =>
    obtain ⟨k1, v1⟩ := p
    rcases List.mem_cons.mp hmem with heq | hmem2
    · obtain ⟨h1, h2⟩ := Prod.mk.injEq .. ▸ heq
      subst h1
      subst h2
      simp [Store.get]
    · have hk1 : k1 ≠ k := by
        intro he
        subst he
        have hkeys : k1 ∈ rest.map Prod.fst :=
          List.mem_map.mpr ⟨(k1, v), hmem2, rfl⟩
        exact (List.nodup_cons.mp (by simpa using hnd)).1 hkeys
      have hbf : (k1 == k) = false := by simpa using hk1
      simp [Store.get, hbf]
      exact ih (List.nodup_cons.mp (by simpa using hnd)).2 hmem2

theorem shift_id_of_get_wf (s : Store ShiftFanout) (k : String)
    (f : ShiftFanout) (hwf : FanoutStoreWF s) (h : s.get k = some f) :
    f.shift_id = k :=
  hwf.2 (k, f) (Store.get_mem s k f h)

theorem get_of_mem_all_wf (s : Store ShiftFanout) (f : ShiftFanout)
    (hwf : FanoutStoreWF s) (h : f ∈ s.all) : s.get f.shift_id = some f := by
  simp only [Store.all] at h
  obtain ⟨⟨k, g⟩, hmem, hg⟩ := List.mem_map.mp h
  have hgf : g = f := hg
  subst hgf
  have hk : g.shift_id = k := hwf.2 (k, g) hmem
  rw [hk]
  exact Store.get_of_mem_nodup s k g hwf.1 hmem

theorem fanout_wf_put (s : Store ShiftFanout) (k : String) (v : ShiftFanout)
    (hwf : FanoutStoreWF s) (hv : v.shift_id = k) :
    FanoutStoreWF (s.put k v) := by
  constructor
  · cases hg : s.get k with
    | some w => rw [Store.map_fst_put_of_get_some s k v w hg]; exact hwf.1
    | none =>
      rw [Store.map_fst_put_of_get_none s k v hg]
      have hnk := Store.not_mem_keys_of_get_none s k hg
      simp [List.nodup_append, hwf.1, hnk]
  · intro p hp
    rcases Store.mem_put_elim s k v p hp with h | h
    · exact hwf.2 p h
    · subst h
      exact hv

theorem fanout_inv_put (s : Store ShiftFanout) (k : String) (v : ShiftFanout)
    (hinv : FanoutInv s) (hok : claimed_by_ok v = true) :
    FanoutInv (s.put k v) := by
  intro f hf
  rcases Store.mem_all_of_mem_all_put s k v f hf with h | h
  · exact hinv f h
  · subst h
    exact hok

/-! ## C9 : `claimed_by` is always a contacted identifier -/

/-- C9: in every reachable state the invariant holds: whenever a stored
fanout's `claimed_by` is non-null it is an identifier in that record's
`contacted_caregiver_ids`; each operation — fanout creation
(`app/api.py` lines 77-84 store `claimed_by = None`), claim
(lines 150-182: the caregiver comes from the record's contacted set found by
the scan) and escalation (lines 119-121 touch neither field) — preserves it,
together with the store well-formedness (distinct keys, records keyed by
their own `shift_id`) that every reachable store enjoys. -/
theorem c9_claimed_by_contacted (db : Database)
    (hwf : FanoutStoreWF db.fanouts) (hinv : FanoutInv db.fanouts) :
    (∀ now sid, FanoutStoreWF (fanout_shift db now sid).db.fanouts ∧
      FanoutInv (fanout_shift db now sid).db.fanouts) ∧
    (∀ now sid, FanoutStoreWF (escalation_action db now sid).1.fanouts ∧
      FanoutInv (escalation_action db now sid).1.fanouts) ∧
    (∀ phone intent, FanoutStoreWF (handle_inbound_message db phone intent).db.fanouts ∧
      FanoutInv (handle_inbound_message db phone intent).db.fanouts) := by
  refine ⟨?_, ?_, ?_⟩
  · intro now sid
    cases hs : db.shifts.get sid with
    | none =>
      simp only [fanout_shift, hs]
      exact ⟨hwf, hinv⟩
    | some shift =>
      cases hf : db.fanouts.get sid with
      | some f =>
        simp only [fanout_shift, hs, hf]
        exact ⟨hwf, hinv⟩
      | none =>
        cases hm : (db.get_caregivers_by_role shift.role_required).isEmpty with
        | true =>
          simp only [fanout_shift, hs, hf, hm]
          exact ⟨hwf, hinv⟩
        | false =>
          have hw : (fanout_shift db now sid).db =
              { db with fanouts := db.fanouts.put sid (initialFanout sid now
                ((db.get_caregivers_by_role shift.role_required).map
                  (fun c => c.id))) } := by
            simp [fanout_shift, initialFanout, hs, hf, hm]
          rw [hw]
          exact ⟨fanout_wf_put _ _ _ hwf rfl,
            fanout_inv_put _ _ _ hinv rfl⟩
  · intro now sid
    cases hf : db.fanouts.get sid with
    | none =>
      simp only [escalation_action, hf]
      exact ⟨hwf, hinv⟩
    | some f =>
      by_cases hP : f.status = ShiftFanoutStatus.PENDING
      · cases hs : db.shifts.get sid with
        | none =>
          simp only [escalation_action, hf, hs, hP]
          simp
          exact ⟨hwf, hinv⟩
        | some shift =>
          have hw : (escalation_action db now sid).1 =
              { db with fanouts := db.fanouts.put sid (escalatedRecord f now) } := by
            simp [escalation_action, escalatedRecord, hf, hP, hs]
          rw [hw]
          have hok : claimed_by_ok (escalatedRecord f now) = true := by
            have := hinv f (Store.get_mem_all _ _ _ hf)
            simpa [claimed_by_ok, escalatedRecord] using this
          refine ⟨fanout_wf_put _ _ _ hwf ?_, fanout_inv_put _ _ _ hinv hok⟩
          simpa [escalatedRecord] using shift_id_of_get_wf _ _ _ hwf hf
      · simp only [escalation_action, hf]
        simp [hP]
        exact ⟨hwf, hinv⟩
  · intro phone intent
    cases hcg : db.get_caregiver_by_phone phone with
    | none =>
      simp only [handle_inbound_message, hcg]
      exact ⟨hwf, hinv⟩
    | some cgr =>
      by_cases hint : intent = Intent.ACCEPT
      · subst hint
        cases hsc : (scan_fanouts db.fanouts.all cgr.id none).fanout with
        | none =>
          cases hcf : (scan_fanouts db.fanouts.all cgr.id none).claimed_fanout with
          | none =>
            simp only [handle_inbound_message, hcg, hsc, hcf]
            simp
            exact ⟨hwf, hinv⟩
          | some g =>
            simp only [handle_inbound_message, hcg, hsc, hcf]
            simp
            exact ⟨hwf, hinv⟩
        | some f =>
          obtain ⟨hmem, hcontact, hPend⟩ := scan_found_spec _ _ _ _ hsc
          have hget : db.fanouts.get f.shift_id = some f :=
            get_of_mem_all_wf _ _ hwf hmem
          have hcs : claim_section db f.shift_id cgr.id =
              ⟨true, { db with
                fanouts := db.fanouts.put f.shift_id (claimedRecord f cgr.id) },
                false⟩ := by
            simp [claim_section, claimedRecord, hget, hPend]
          have hh : (handle_inbound_message db phone Intent.ACCEPT).db =
              { db with
                fanouts := db.fanouts.put f.shift_id (claimedRecord f cgr.id) } := by
            simp [handle_inbound_message, hcg, hsc, hcs]
          rw [hh]
          have hok : claimed_by_ok (claimedRecord f cgr.id) = true := by
            simp [claimed_by_ok, claimedRecord]
            exact hcontact
          exact ⟨fanout_wf_put _ _ _ hwf rfl, fanout_inv_put _ _ _ hinv hok⟩
      · simp [handle_inbound_message, hcg, hint]
        exact ⟨hwf, hinv⟩

/-- C9 witness: the invariant holds after a fresh fanout, after an
escalation and after a successful claim from concrete well-formed states. -/
theorem c9_witness :
    (FanoutStoreWF (fanout_shift dbNoFanout 55 "s1").db.fanouts ∧
      FanoutInv (fanout_shift dbNoFanout 55 "s1").db.fanouts) ∧
    (FanoutStoreWF (escalation_action dbPending 77 "s1").1.fanouts ∧
      FanoutInv (escalation_action dbPending 77 "s1").1.fanouts) ∧
    (FanoutStoreWF (handle_inbound_message dbPending "p1" .ACCEPT).db.fanouts ∧
      FanoutInv (handle_inbound_message dbPending "p1" .ACCEPT).db.fanouts) :=
  ⟨(c9_claimed_by_contacted dbNoFanout (by decide) (by decide)).1 55 "s1",
    (c9_claimed_by_contacted dbPending (by decide) (by decide)).2.1 77 "s1",
    (c9_claimed_by_contacted dbPending (by decide) (by decide)).2.2 "p1" .ACCEPT⟩

/-! ## Concurrent-claim lemmas (toward C1) -/

theorem store_get_singleton {V : Type} (k : String) (v : V) :
    Store.get [(k, v)] k = some v := by
  simp [Store.get]

theorem store_all_singleton {V : Type} (k : String) (v : V) :
    Store.all [(k, v)] = [v] := rfl

theorem store_put_singleton {V : Type} (k : String) (v w : V) :
    Store.put [(k, v)] k w = [(k, w)] := by
  simp [Store.put]

theorem mem_of_getElem?_list {α : Type} {l : List α} {i : Nat} {a : α}
    (h : l[i]? = some a) : a ∈ l := by
  obtain ⟨hlt, rfl⟩ := List.getElem?_eq_some.mp h
  exact List.getElem_mem hlt

/-- A scanning handler over the still-PENDING singleton store suspends
before the claim section of `sid`. -/
theorem claimerStep_scan_pending (db : Database) (c : Caregiver) (sid : String)
    (f0 : ShiftFanout) (hdb : db.fanouts = [(sid, f0)])
    (hsid : f0.shift_id = sid)
    (hcid : c.id ∈ f0.contacted_caregiver_ids)
    (hP : f0.status = ShiftFanoutStatus.PENDING) :
    claimerStep db c .toScan = (db, .toClaim sid) := by
  simp [claimerStep, hdb, Store.all, scan_fanouts, hcid, hP, hsid]

/-- A scanning handler over the already-CLAIMED singleton store finishes
with `shift_already_claimed`. -/
theorem claimerStep_scan_claimed (db : Database) (c : Caregiver) (sid : String)
    (fC : ShiftFanout) (hdb : db.fanouts = [(sid, fC)])
    (hcid : c.id ∈ fC.contacted_caregiver_ids)
    (hCl : fC.status = ShiftFanoutStatus.CLAIMED) :
    claimerStep db c .toScan = (db, .doneAlreadyClaimed) := by
  simp [claimerStep, hdb, Store.all, scan_fanouts, hcid, hCl]

/-- The claim section over the still-PENDING singleton store commits the
claim: status CLAIMED, `claimed_by` the claimer. -/
theorem claimerStep_claim_pending (db : Database) (c : Caregiver) (sid : String)
    (f0 : ShiftFanout) (hdb : db.fanouts = [(sid, f0)])
    (hP : f0.status = ShiftFanoutStatus.PENDING) :
    claimerStep db c (.toClaim sid) =
      ({ db with fanouts := [(sid, claimedRecord f0 c.id)] },
        .doneClaimed sid) := by
  simp [claimerStep, claim_section, hdb, Store.get, Store.put, hP, claimedRecord]

/-- The claim section over the already-CLAIMED singleton store changes
nothing and finishes with `shift_already_claimed`. -/
theorem claimerStep_claim_claimed (db : Database) (c : Caregiver) (sid : String)
    (fC : ShiftFanout) (hdb : db.fanouts = [(sid, fC)])
    (hCl : fC.status = ShiftFanoutStatus.CLAIMED) :
    claimerStep db c (.toClaim sid) = (db, .doneAlreadyClaimed) := by
  simp [claimerStep, claim_section, hdb, Store.get, hCl]

/-- One scheduler step preserves the concurrent-claim invariant. -/
theorem claimInv_step (sid : String) (f0 : ShiftFanout) (cgs : List Caregiver)
    (hsid : f0.shift_id = sid) (hP : f0.status = ShiftFanoutStatus.PENDING)
    (hc : ∀ c ∈ cgs, c.id ∈ f0.contacted_caregiver_ids)
    (s : ClaimSys) (hinv : ClaimInv sid f0 cgs s) (i : Nat) :
    ClaimInv sid f0 cgs (sysStep cgs s i) := by
  obtain ⟨hlen, hcase⟩ := hinv
  cases hci : cgs[i]? with
  | none =>
    simpa [sysStep, hci] using And.intro hlen hcase
  | some c =>
    cases hpi : s.phases[i]? with
    | none =>
      simpa [sysStep, hci, hpi] using And.intro hlen hcase
    | some ph =>
      have hilt : i < s.phases.length := (List.getElem?_eq_some.mp hpi).1
      have hcmem : c ∈ cgs := mem_of_getElem?_list hci
      rcases hcase with ⟨hdb, hall⟩ | ⟨j, w, hcj, hpj, hdb, hothers⟩
      · have hphm : ph ∈ s.phases := mem_of_getElem?_list hpi
        rcases hall ph hphm with hph | hph
        · subst hph
          have hcs := claimerStep_scan_pending s.db c sid f0 hdb hsid
            (hc c hcmem) hP
          have hstep : sysStep cgs s i =
              ⟨s.db, s.phases.set i (.toClaim sid)⟩ := by
            simp [sysStep, hci, hpi, hcs]
          rw [hstep]
          refine ⟨by simpa using hlen, Or.inl ⟨hdb, ?_⟩⟩
          intro ph2 hph2
          rcases List.mem_or_eq_of_mem_set hph2 with h | h
          · exact hall ph2 h
          · exact Or.inr h
        · subst hph
          have hcs := claimerStep_claim_pending s.db c sid f0 hdb hP
          have hstep : sysStep cgs s i =
              ⟨{ s.db with fanouts := [(sid, claimedRecord f0 c.id)] },
                s.phases.set i (.doneClaimed sid)⟩ := by
            simp [sysStep, hci, hpi, hcs]
          rw [hstep]
          refine ⟨by simpa using hlen, Or.inr ⟨i, c, hci, ?_, rfl, ?_⟩⟩
          · exact List.getElem?_set_eq_of_lt _ hilt
          · intro i2 hne ph2 hpi2
            rw [List.getElem?_set_ne (fun he => hne he.symm)] at hpi2
            rcases hall ph2 (mem_of_getElem?_list hpi2) with h | h
            · exact Or.inl h
            · exact Or.inr (Or.inl h)
      · by_cases hij : i = j
        · subst hij
          have hphd : ph = ClaimerPhase.doneClaimed sid := by
            rw [hpi] at hpj
            exact Option.some.inj hpj
          subst hphd
          have hstep : sysStep cgs s i =
              ⟨s.db, s.phases.set i (.doneClaimed sid)⟩ := by
            simp [sysStep, hci, hpi, claimerStep]
          rw [hstep]
          refine ⟨by simpa using hlen,
            Or.inr ⟨i, w, hcj, List.getElem?_set_eq_of_lt _ hilt, hdb, ?_⟩⟩
          intro i2 hne ph2 hpi2
          rw [List.getElem?_set_ne (fun he => hne he.symm)] at hpi2
          exact hothers i2 hne ph2 hpi2
        · have hph3 := hothers i hij ph hpi
          have hwc : c.id ∈ (claimedRecord f0 w.id).contacted_caregiver_ids := by
            simpa [claimedRecord] using hc c hcmem
          have hws : (claimedRecord f0 w.id).status = ShiftFanoutStatus.CLAIMED :=
            rfl
          have hfinish : ∀ rest : ClaimSys,
              rest = ⟨s.db, s.phases.set i .doneAlreadyClaimed⟩ →
              ClaimInv sid f0 cgs rest := by
            intro rest hrest
            subst hrest
            refine ⟨by simpa using hlen, Or.inr ⟨j, w, hcj, ?_, hdb, ?_⟩⟩
            · rw [List.getElem?_set_ne hij]
              exact hpj
            · intro i2 hne ph2 hpi2
              by_cases hii : i2 = i
              · subst hii
                rw [List.getElem?_set_eq_of_lt _ hilt] at hpi2
                have h3 := (Option.some.inj hpi2).symm
                subst h3
                exact Or.inr (Or.inr rfl)
              · rw [List.getElem?_set_ne (fun he => hii he.symm)] at hpi2
                exact hothers i2 hne ph2 hpi2
          rcases hph3 with hph | hph | hph
          · subst hph
            have hcs := claimerStep_scan_claimed s.db c sid _ hdb hwc hws
            exact hfinish _ (by simp [sysStep, hci, hpi, hcs])
          · subst hph
            have hcs := claimerStep_claim_claimed s.db c sid _ hdb hws
            exact hfinish _ (by simp [sysStep, hci, hpi, hcs])
          · subst hph
            exact hfinish _ (by simp [sysStep, hci, hpi, claimerStep])

/-- Whole interleavings preserve the concurrent-claim invariant. -/
theorem claimInv_run (sid : String) (f0 : ShiftFanout) (cgs : List Caregiver)
    (hsid : f0.shift_id = sid) (hP : f0.status = ShiftFanoutStatus.PENDING)
    (hc : ∀ c ∈ cgs, c.id ∈ f0.contacted_caregiver_ids)
    (s : ClaimSys) (hinv : ClaimInv sid f0 cgs s) (sched : List Nat) :
    ClaimInv sid f0 cgs (sysRun cgs s sched) := by
  induction sched generalizing s with
  | nil => exact hinv
  | cons i rest ih =>
    exact ih (sysStep cgs s i) (claimInv_step sid f0 cgs hsid hP hc s hinv i)

/-! ## C1 : exactly one winner under concurrent ACCEPT replies -/

/-- C1: for a PENDING fanout whose contacted set holds N ≥ 2 caregivers and
which is the fanout record under contention (the store's fanout collection
holds exactly this record, the §8 scenario), if K ≥ 2 contacted caregivers
submit ACCEPT replies concurrently then — for EVERY interleaving of the
handlers' atomic steps that lets all K calls finish — exactly one call
returns `shift_claimed` (phase `doneClaimed`), the other K−1 return
`shift_already_claimed` (phase `doneAlreadyClaimed`), and the stored
`claimed_by` is the identifier of one of the K senders
(`app/api.py` lines 150-187 with the per-shift lock of lines 23-28). -/
theorem c1_exactly_one_winner (sid : String) (f0 : ShiftFanout)
    (cgs : List Caregiver) (db0 : Database) (sched : List Nat)
    (hsid : f0.shift_id = sid)
    (hP : f0.status = ShiftFanoutStatus.PENDING)
    (hN : 2 ≤ f0.contacted_caregiver_ids.length)
    (hK : 2 ≤ cgs.length)
    (hc : ∀ c ∈ cgs, c.id ∈ f0.contacted_caregiver_ids)
    (hdb : db0.fanouts = [(sid, f0)])
    (hdone : ∀ ph ∈ (sysRun cgs ⟨db0, List.replicate cgs.length .toScan⟩
        sched).phases, ph.isDone = true) :
    ∃ (j : Nat) (c : Caregiver), cgs[j]? = some c ∧
      (sysRun cgs ⟨db0, List.replicate cgs.length .toScan⟩ sched).phases[j]? =
        some (.doneClaimed sid) ∧
      (sysRun cgs ⟨db0, List.replicate cgs.length .toScan⟩
          sched).db.fanouts.get sid = some (claimedRecord f0 c.id) ∧
      ∀ i ph, i ≠ j →
        (sysRun cgs ⟨db0, List.replicate cgs.length .toScan⟩
            sched).phases[i]? = some ph →
        ph = .doneAlreadyClaimed := by
  have hinv0 : ClaimInv sid f0 cgs ⟨db0, List.replicate cgs.length .toScan⟩ := by
    refine ⟨by simp, Or.inl ⟨hdb, ?_⟩⟩
    intro ph hph
    exact Or.inl (List.eq_of_mem_replicate hph)
  have hinv := claimInv_run sid f0 cgs hsid hP hc _ hinv0 sched
  obtain ⟨hlen, hcase⟩ := hinv
  rcases hcase with ⟨hdbA, hall⟩ | ⟨j, w, hcj, hpj, hdbB, hothers⟩
  · exfalso
    have hpos : 0 < (sysRun cgs ⟨db0, List.replicate cgs.length .toScan⟩
        sched).phases.length := by
      rw [hlen]
      omega
    obtain ⟨ph, hph⟩ := List.exists_mem_of_length_pos hpos
    have hd := hdone ph hph
    rcases hall ph hph with h | h <;> subst h <;>
      simp [ClaimerPhase.isDone] at hd
  · refine ⟨j, w, hcj, hpj, ?_, ?_⟩
    · rw [hdbB]
      exact store_get_singleton sid _
    · intro i ph hne hpi
      rcases hothers i hne ph hpi with h | h | h
      · exfalso
        have hd := hdone ph (mem_of_getElem?_list hpi)
        subst h
        simp [ClaimerPhase.isDone] at hd
      · exfalso
        have hd := hdone ph (mem_of_getElem?_list hpi)
        subst h
        simp [ClaimerPhase.isDone] at hd
      · exact h

/-- C1 witness: caregivers `a` and `b` race for the PENDING fanout of `s1`
under the interleaving scan-A, claim-A, scan-B; the run finishes, and the
theorem yields the unique winner with `claimed_by` among the senders. -/
theorem c1_witness :
    (∀ ph ∈ (sysRun [caregiverA, caregiverB]
        ⟨dbPending, List.replicate 2 .toScan⟩ [0, 0, 1]).phases,
      ph.isDone = true) ∧
    ∃ (j : Nat) (c : Caregiver), [caregiverA, caregiverB][j]? = some c ∧
      (sysRun [caregiverA, caregiverB]
          ⟨dbPending, List.replicate 2 .toScan⟩ [0, 0, 1]).phases[j]? =
        some (.doneClaimed "s1") ∧
      (sysRun [caregiverA, caregiverB]
          ⟨dbPending, List.replicate 2 .toScan⟩
          [0, 0, 1]).db.fanouts.get "s1" =
        some (claimedRecord pendingFanout c.id) ∧
      ∀ i ph, i ≠ j →
        (sysRun [caregiverA, caregiverB]
            ⟨dbPending, List.replicate 2 .toScan⟩
            [0, 0, 1]).phases[i]? = some ph →
        ph = .doneAlreadyClaimed :=
  ⟨by decide,
    c1_exactly_one_winner "s1" pendingFanout [caregiverA, caregiverB]
      dbPending [0, 0, 1] (by decide) (by decide) (by decide) (by decide)
      (by decide) (by decide) (by decide)⟩
